import Mathlib

/-!
Verification of the capsule content-capture service core.

This file gives a shallow embedding, in Lean 4, of the job-store operations
(`src/jobs/repository.rs`), the worker supervisor's retry policy
(`src/jobs/worker.rs`), the backoff calculator (`src/jobs/backoff.rs`),
the fetch error taxonomy (`src/fetcher/errors.rs`), the charset pipeline
(`src/fetcher/pipeline.rs`, `src/fetcher/types.rs`), the HTTP fetch gate
(`src/fetcher/client.rs`), the extractor rejection rules
(`src/extractor/reject.rs`) and language detection
(`src/extractor/language.rs`), and proves the specified properties of them.

Machine integers: `attempts`, `max_attempts`, `backoff_seconds` are Postgres
`int4` / Rust `i32`; the values reachable here stay far from `i32` bounds, so
they are modelled as `Int`.  Wall-clock times (`chrono::DateTime<Utc>`) are
modelled as `Int` instants passed explicitly where the SQL uses `now()`.
UUIDs are modelled as `Nat`; JSON payloads are opaque `String`s.
-/

namespace Capsule

/-- Job status enum, `job_status` in `src/entities/mod.rs` (`JobStatus`). -/
inductive JobStatus where
  | queued
  | running
  | succeeded
  | failed
deriving DecidableEq, Repr

/-- A row of the `jobs` table, `Job` in `src/entities/mod.rs`. -/
structure Job where
  id : Nat
  kind : String
  payload : String
  run_at : Int
  attempts : Int
  max_attempts : Int
  backoff_seconds : Int
  status : JobStatus
  last_error : Option String
  visibility_till : Option Int
  reserved_by : Option Nat
  created_at : Int
  updated_at : Int
deriving DecidableEq, Repr

/-- The `jobs` table. -/
abbrev Store := List Job

/-- `JobRepository::enqueue` (`src/jobs/repository.rs`): insert a queued row
with `attempts = 0`, `run_at` defaulting to `now` and `max_attempts`
defaulting to 25.  `id` is the server-generated primary key. -/
def enqueue (s : Store) (now : Int) (id : Nat) (kind payload : String)
    (run_at : Option Int) (max_attempts : Option Int) : Store :=
  s ++ [{ id := id
          kind := kind
          payload := payload
          run_at := run_at.getD now
          attempts := 0
          max_attempts := max_attempts.getD 25
          backoff_seconds := 0
          status := .queued
          last_error := none
          visibility_till := none
          reserved_by := none
          created_at := now
          updated_at := now }]

/-- The `WHERE` clause of `fetch_due_jobs`: a job is due iff
`(status = queued OR (status = running AND visibility_till < now))
AND run_at <= now`. -/
def is_due (now : Int) (j : Job) : Bool :=
  (decide (j.status = .queued) ||
    (decide (j.status = .running) &&
      match j.visibility_till with
      | some v => decide (v < now)
      | none => false)) &&
  decide (j.run_at ≤ now)

/-- Insertion step of the `ORDER BY run_at` sort. -/
def insert_by_run_at (j : Job) : List Job → List Job
  | [] => [j]
  | k :: rest =>
    if j.run_at ≤ k.run_at then j :: k :: rest else k :: insert_by_run_at j rest

/-- `ORDER BY run_at` (ascending) of the candidate subquery in
`fetch_due_jobs`, modelled as insertion sort. -/
def order_by_run_at : List Job → List Job
  | [] => []
  | j :: rest => insert_by_run_at j (order_by_run_at rest)

/-- The update applied to a claimed row by `fetch_due_jobs`:
`status = running, visibility_till = now + visibility, reserved_by = worker`. -/
def claim_row (now : Int) (worker_id : Nat) (visibility_till : Int) (j : Job) : Job :=
  { j with status := .running
           visibility_till := some visibility_till
           reserved_by := some worker_id
           updated_at := now }

/-- `JobRepository::fetch_due_jobs` (`src/jobs/repository.rs`): atomically
claim up to `limit` due rows ordered by `run_at` ascending, set
`status = running`, `visibility_till = now + visibility_timeout_secs`,
`reserved_by = worker_id`, and return the updated rows.  Returns the updated
table together with the claimed batch. -/
def fetch_due_jobs (s : Store) (now : Int) (limit : Nat) (worker_id : Nat)
    (visibility_timeout_secs : Int) : Store × List Job :=
  let visibility_till := now + visibility_timeout_secs
  let candidates := (order_by_run_at (s.filter (is_due now))).take limit
  let claimed_ids := candidates.map Job.id
  (s.map fun j =>
      if j.id ∈ claimed_ids then claim_row now worker_id visibility_till j else j,
   candidates.map (claim_row now worker_id visibility_till))

/-- `JobRepository::mark_success` (`src/jobs/repository.rs`): set
`status = succeeded` and clear the reservation fields on the matching row. -/
def mark_success (s : Store) (now : Int) (job_id : Nat) : Store :=
  s.map fun j =>
    if j.id = job_id then
      { j with status := .succeeded
               visibility_till := none
               reserved_by := none
               updated_at := now }
    else j

/-- `JobRepository::mark_failure` (`src/jobs/repository.rs`): on the matching
row, increment `attempts`, set `last_error` and `backoff_seconds`, clear the
reservation fields, and set `status = queued, run_at = next_run_at` when
`next_run_at` is present (`run_at = COALESCE($4, run_at)`), else
`status = failed` with `run_at` unchanged. -/
def mark_failure (s : Store) (now : Int) (job_id : Nat) (error_message : String)
    (next_run_at : Option Int) (backoff_seconds : Int) : Store :=
  let status : JobStatus := match next_run_at with
    | some _ => .queued
    | none => .failed
  s.map fun j =>
    if j.id = job_id then
      { j with status := status
               attempts := j.attempts + 1
               last_error := some error_message
               run_at := next_run_at.getD j.run_at
               backoff_seconds := backoff_seconds
               visibility_till := none
               reserved_by := none
               updated_at := now }
    else j

/-- `JobRepository::extend_visibility` (`src/jobs/repository.rs`): push
`visibility_till` forward on the matching row, only if it is still running. -/
def extend_visibility (s : Store) (now : Int) (job_id : Nat)
    (visibility_timeout_secs : Int) : Store :=
  s.map fun j =>
    if j.id = job_id ∧ j.status = .running then
      { j with visibility_till := some (now + visibility_timeout_secs)
               updated_at := now }
    else j

/-- A sample queued row used by the concrete witnesses below. -/
def sample_job : Job :=
  { id := 1
    kind := "fetch_page"
    payload := "x"
    run_at := 0
    attempts := 0
    max_attempts := 25
    backoff_seconds := 0
    status := .queued
    last_error := none
    visibility_till := none
    reserved_by := none
    created_at := 0
    updated_at := 0 }

/-- A second sample row (distinct id), queued and due at time 10. -/
def sample_job2 : Job :=
  { id := 2
    kind := "fetch_page"
    payload := "y"
    run_at := 3
    attempts := 0
    max_attempts := 25
    backoff_seconds := 0
    status := .queued
    last_error := none
    visibility_till := none
    reserved_by := none
    created_at := 0
    updated_at := 0 }

/-- A sequence of `fetch_due_jobs` calls (arguments `now, limit, worker_id,
visibility_timeout_secs` for each call), threaded through the store; returns
the final store and the list of returned batches. -/
def fetch_due_runs (s : Store) : List (Int × Nat × Nat × Int) → Store × List (List Job)
  | [] => (s, [])
  | (now, limit, w, v) :: rest =>
    let r := fetch_due_jobs s now limit w v
    let r' := fetch_due_runs r.1 rest
    (r'.1, r.2 :: r'.2)

/-- Every row of the store carrying this id is in a terminal status. -/
def terminal_at (s : Store) (id : Nat) : Prop :=
  ∀ j ∈ s, j.id = id → j.status = .succeeded ∨ j.status = .failed

/-- Look up the row with this id (`find?`; ids are unique in the stores the
invariant proofs range over). -/
def get_job (s : Store) (id : Nat) : Option Job :=
  s.find? fun j => decide (j.id = id)

/-- States `(store, inflight)` reachable from the empty table by the exposed
operations, with `mark_success`/`mark_failure` invoked only as the worker
supervisor does (`WorkerSupervisor::process_job`, `src/jobs/worker.rs`).
`inflight` holds the claimed row *snapshots* handed from `fetch_due_jobs` to
executions and not yet marked: on handler error the supervisor computes
`attempt = job.attempts + 1` from the snapshot it received and calls
`mark_failure(id, err, Some(now + delay), delay)` when
`attempt < job.max_attempts`, else `mark_failure(id, err, None, 0)`; on
handler-factory error, `mark_failure(id, msg, None, 0)`; on success,
`mark_success(id)`.  `mark_failure`'s SQL updates the row by id with no
status guard, so a mark may land on a row that changed since the claim — a
late mark after a visibility-timeout reclaim ("the original worker's late
`mark_*` still updates the row").  The parameter `P` constrains each
enqueue's effective `max_attempts`; job ids are fresh at insert
(server-generated primary key).  With `fresh_marks := false` this is the
faithful system; `fresh_marks := true` restricts it to runs in which every
mark still finds its row exactly as claimed (no reclaim ran the job
concurrently), the side condition of the amended C3. -/
inductive Reachable (P : Int → Prop) (fresh_marks : Bool) :
    Store → List Job → Prop where
  | empty : Reachable P fresh_marks [] []
  | enqueue_step (s : Store) (fl : List Job) (now : Int) (id : Nat)
      (kind payload : String) (run_at : Option Int) (max_att : Option Int)
      (hs : Reachable P fresh_marks s fl) (hfresh : id ∉ s.map Job.id)
      (hP : P (max_att.getD 25)) :
      Reachable P fresh_marks (enqueue s now id kind payload run_at max_att) fl
  | fetch_step (s : Store) (fl : List Job) (now : Int) (limit : Nat) (w : Nat)
      (v : Int) (hs : Reachable P fresh_marks s fl) :
      Reachable P fresh_marks (fetch_due_jobs s now limit w v).1
        (fl ++ (fetch_due_jobs s now limit w v).2)
  | success_step (s : Store) (fl : List Job) (now : Int) (j : Job)
      (hs : Reachable P fresh_marks s fl) (hj : j ∈ fl) :
      Reachable P fresh_marks (mark_success s now j.id) (fl.erase j)
  | handler_create_fail_step (s : Store) (fl : List Job) (now : Int) (j : Job)
      (msg : String) (hs : Reachable P fresh_marks s fl) (hj : j ∈ fl)
      (hcur : fresh_marks = true → get_job s j.id = some j) :
      Reachable P fresh_marks (mark_failure s now j.id msg none 0) (fl.erase j)
  | retry_step (s : Store) (fl : List Job) (now : Int) (j : Job) (err : String)
      (d : Int) (hs : Reachable P fresh_marks s fl) (hj : j ∈ fl)
      (hlt : j.attempts + 1 < j.max_attempts)
      (hcur : fresh_marks = true → get_job s j.id = some j) :
      Reachable P fresh_marks (mark_failure s now j.id err (some (now + d)) d)
        (fl.erase j)
  | fail_terminal_step (s : Store) (fl : List Job) (now : Int) (j : Job)
      (err : String) (hs : Reachable P fresh_marks s fl) (hj : j ∈ fl)
      (hge : ¬ j.attempts + 1 < j.max_attempts)
      (hcur : fresh_marks = true → get_job s j.id = some j) :
      Reachable P fresh_marks (mark_failure s now j.id err none 0) (fl.erase j)
  | extend_step (s : Store) (fl : List Job) (now : Int) (id : Nat) (v : Int)
      (hs : Reachable P fresh_marks s fl) :
      Reachable P fresh_marks (extend_visibility s now id v) fl

/-- Invariant of the in-flight snapshots: each was returned by a claim, hence
carries status running. -/
def inflight_ok (fl : List Job) : Prop :=
  ∀ j ∈ fl, j.status = .running

/-- The inductive invariant: `attempts ≤ max_attempts`, and a queued or
running row can still afford one more attempt. -/
def job_ok (j : Job) : Prop :=
  j.attempts ≤ j.max_attempts ∧
    ((j.status = .queued ∨ j.status = .running) → j.attempts + 1 ≤ j.max_attempts)

/-- Inductive store invariant: every row is `job_ok` and ids are unique. -/
def store_ok (s : Store) : Prop :=
  (∀ j ∈ s, job_ok j) ∧ (s.map Job.id).Nodup

/-- Trace refuting the unamended C3: enqueue with `max_attempts = 0`. -/
def c3_s1 : Store := enqueue [] 0 1 "k" "p" none (some 0)

/-- The trace after the single job is claimed at time 0. -/
def c3_s2 : Store := (fetch_due_jobs c3_s1 0 1 7 300).1

/-- The claimed running row of `c3_s2`. -/
def c3_jrun : Job :=
  { id := 1
    kind := "k"
    payload := "p"
    run_at := 0
    attempts := 0
    max_attempts := 0
    backoff_seconds := 0
    status := .running
    last_error := none
    visibility_till := some 300
    reserved_by := some 7
    created_at := 0
    updated_at := 0 }

/-- The trace after the handler fails and the supervisor records a terminal
failure (`attempt = 1` is not `< max_attempts = 0`). -/
def c3_s3 : Store := mark_failure c3_s2 1 1 "boom" none 0

/-- The resulting row: `attempts = 1 > 0 = max_attempts`. -/
def c3_viol : Job :=
  { id := 1
    kind := "k"
    payload := "p"
    run_at := 0
    attempts := 1
    max_attempts := 0
    backoff_seconds := 0
    status := .failed
    last_error := some "boom"
    visibility_till := none
    reserved_by := none
    created_at := 0
    updated_at := 1 }

/-- Second trace refuting the unamended C3, this time with
`max_attempts = 2 ≥ 1`: a late mark from a stale snapshot after a
visibility-timeout reclaim.  Worker A claims the job at time 0 with
visibility 10… -/
def c3r_s1 : Store := enqueue [] 0 1 "k" "p" none (some 2)

/-- …A claims (visibility till 10)… -/
def c3r_s2 : Store := (fetch_due_jobs c3r_s1 0 1 100 10).1

/-- A's claimed snapshot: attempts 0. -/
def c3r_jA : Job :=
  { id := 1
    kind := "k"
    payload := "p"
    run_at := 0
    attempts := 0
    max_attempts := 2
    backoff_seconds := 0
    status := .running
    last_error := none
    visibility_till := some 10
    reserved_by := some 100
    created_at := 0
    updated_at := 0 }

/-- …at time 11 the visibility has expired and worker B reclaims… -/
def c3r_s3 : Store := (fetch_due_jobs c3r_s2 11 1 200 10).1

/-- B's claimed snapshot: still attempts 0. -/
def c3r_jB : Job :=
  { id := 1
    kind := "k"
    payload := "p"
    run_at := 0
    attempts := 0
    max_attempts := 2
    backoff_seconds := 0
    status := .running
    last_error := none
    visibility_till := some 21
    reserved_by := some 200
    created_at := 0
    updated_at := 11 }

/-- …B's handler fails; `0 + 1 < 2`, so B schedules a retry
(attempts 1, queued)… -/
def c3r_s4 : Store := mark_failure c3r_s3 11 1 "e1" (some 16) 5

/-- …A's handler now fails late; A also computed `0 + 1 < 2` from its stale
snapshot, and `mark_failure` has no status guard, so the mark lands on the
queued row (attempts 2, queued)… -/
def c3r_s5 : Store := mark_failure c3r_s4 12 1 "e2" (some 17) 5

/-- …worker C claims the job at time 20 (snapshot attempts 2)… -/
def c3r_s6 : Store := (fetch_due_jobs c3r_s5 20 1 300 10).1

/-- C's claimed snapshot: attempts 2 of max 2. -/
def c3r_jC : Job :=
  { id := 1
    kind := "k"
    payload := "p"
    run_at := 17
    attempts := 2
    max_attempts := 2
    backoff_seconds := 5
    status := .running
    last_error := some "e2"
    visibility_till := some 30
    reserved_by := some 300
    created_at := 0
    updated_at := 20 }

/-- …C's handler fails; `2 + 1 < 2` is false, so the terminal mark sets
attempts to 3. -/
def c3r_s7 : Store := mark_failure c3r_s6 20 1 "e3" none 0

/-- The resulting row: `attempts = 3 > 2 = max_attempts`. -/
def c3r_viol : Job :=
  { id := 1
    kind := "k"
    payload := "p"
    run_at := 17
    attempts := 3
    max_attempts := 2
    backoff_seconds := 0
    status := .failed
    last_error := some "e3"
    visibility_till := none
    reserved_by := none
    created_at := 0
    updated_at := 20 }

/-! ## Backoff calculator, `src/jobs/backoff.rs` -/

/-- `u32::MAX`, the saturation bound of the `u32` arithmetic in
`calculate_backoff_delay`. -/
def u32_max : Nat := 2 ^ 32 - 1

/-- `calculate_backoff_delay(attempt, base_delay_secs)` from
`src/jobs/backoff.rs`: clamp negative attempts to zero, cap the exponent at
10, compute `base * 2^attempt` with `u32` saturating arithmetic, multiply by
the jitter factor and round to whole seconds.  The jitter factor — drawn by
the code uniformly from `[0.7, 1.3)` — is passed explicitly; `f64`
multiplication is modelled as exact rational arithmetic and `f64::round`
(half away from zero, here on a non-negative value) as `⌊x + 1/2⌋`. -/
def calculate_backoff_delay (attempt : Int) (base_delay_secs : Nat)
    (jitter_factor : ℚ) : Nat :=
  let attempt' : Nat := (max attempt 0).toNat
  let capped_attempt := min attempt' 10
  let base_delay := min (base_delay_secs * min (2 ^ capped_attempt) u32_max) u32_max
  (⌊(base_delay : ℚ) * jitter_factor + 1 / 2⌋).toNat

/-- The jitter-free delay `base · 2^min(max(attempt,0),10)` with saturating
arithmetic, as the spec's backoff-bounds property states it. -/
def backoff_ideal (attempt : Int) (base_delay_secs : Nat) : ℚ :=
  min ((base_delay_secs : ℚ) * 2 ^ min ((max attempt 0).toNat) 10) ((u32_max : Nat) : ℚ)

/-! ## Fetch error taxonomy, `src/fetcher/errors.rs` -/

/-- `FetchError` (`src/fetcher/errors.rs`).  The Rust `Io` variant is named
`io_error` here; payload strings and sizes are kept. -/
inductive FetchError where
  | invalid_url (msg : String)
  | dns (msg : String)
  | tls (msg : String)
  | connect_timeout
  | request_timeout
  | redirect_loop
  | http (status : Nat) (retriable : Bool)
  | body_too_large (size : Nat)
  | unsupported_content_type (ct : String)
  | charset (msg : String)
  | io_error (msg : String)
  | unknown (msg : String)
deriving DecidableEq, Repr

/-- `FetchError::should_retry` (`src/fetcher/errors.rs`). -/
def should_retry : FetchError → Bool
  | .invalid_url _ => false
  | .body_too_large _ => false
  | .unsupported_content_type _ => false
  | .charset _ => false
  | .http _ retriable => retriable
  | .dns _ => true
  | .tls _ => true
  | .connect_timeout => true
  | .request_timeout => true
  | .redirect_loop => true
  | .io_error _ => true
  | .unknown _ => true

/-- `reqwest::StatusCode::is_server_error`: the status is in `500..=599`. -/
def is_server_error (status : Nat) : Bool :=
  decide (500 ≤ status) && decide (status ≤ 599)

/-- The `Http` error as the fetcher constructs it at both sites — the
non-success branch of `fetch` (`src/fetcher/client.rs`) and
`FetchError::from_reqwest_error` — with `retriable = status.is_server_error()`. -/
def http_error_of_status (status : Nat) : FetchError :=
  .http status (is_server_error status)

/-- The observations of a `reqwest::Error` that
`FetchError::from_reqwest_error` branches on. -/
structure ReqwestError where
  is_timeout : Bool
  is_connect : Bool
  is_redirect : Bool
  status : Option Nat
  is_request : Bool
  msg : String

/-- `FetchError::from_reqwest_error` (`src/fetcher/errors.rs`). -/
def from_reqwest_error (e : ReqwestError) : FetchError :=
  if e.is_timeout then
    if e.is_connect then .connect_timeout else .request_timeout
  else if e.is_redirect then .redirect_loop
  else
    match e.status with
    | some status => .http status (is_server_error status)
    | none => if e.is_request then .dns e.msg else .unknown e.msg

/-! ## Charset detection and decoding, `src/fetcher/types.rs` and
`src/fetcher/pipeline.rs` -/

/-- An `encoding_rs` encoding static, identified by its canonical WHATWG
name; `std::ptr::eq` on the statics coincides with name equality. -/
structure Encoding where
  name : String
deriving DecidableEq, Repr

/-- `encoding_rs::UTF_8`. -/
def UTF_8 : Encoding := ⟨"UTF-8"⟩

/-- `encoding_rs::WINDOWS_1252`. -/
def WINDOWS_1252 : Encoding := ⟨"windows-1252"⟩

/-- `encoding_rs::SHIFT_JIS`. -/
def SHIFT_JIS : Encoding := ⟨"Shift_JIS"⟩

/-- `encoding_rs::GBK`. -/
def GBK : Encoding := ⟨"GBK"⟩

/-- `encoding_rs::GB18030`. -/
def GB18030 : Encoding := ⟨"gb18030"⟩

/-- `encoding_rs::BIG5`. -/
def BIG5 : Encoding := ⟨"Big5"⟩

/-- `encoding_rs::EUC_KR`, an encoding outside the known set of
`Charset::from_encoding`. -/
def EUC_KR : Encoding := ⟨"EUC-KR"⟩

/-- `Charset` (`src/fetcher/types.rs`). -/
inductive Charset where
  | utf8
  | latin1
  | windows1252
  | iso88591
  | shift_jis
  | gb2312
  | big5
  | other (name : String)
deriving DecidableEq, Repr

/-- `Charset::from_encoding` (`src/fetcher/types.rs`): pointer-compare the
encoding against the known statics; any other encoding yields the fixed tag
`Other("unknown")` (the source comment calls this "a simplified approach"). -/
def from_encoding (encoding : Encoding) : Charset :=
  if encoding = UTF_8 then .utf8
  else if encoding = WINDOWS_1252 then .windows1252
  else if encoding = SHIFT_JIS then .shift_jis
  else if encoding = GBK ∨ encoding = GB18030 then .gb2312
  else if encoding = BIG5 then .big5
  else .other "unknown"

/-- Rust `str::to_lowercase`, on the ASCII fragment exercised by charset
labels. -/
def str_to_lower (s : String) : String :=
  String.mk (s.toList.map Char.toLower)

/-- Rust `str::contains` (substring containment). -/
def str_contains (s pat : String) : Bool :=
  s.toList.tails.any fun t => pat.toList.isPrefixOf t

/-- The external collaborators of the charset pipeline, abstracted: the first
capture groups of the three charset regexes (crate `regex`),
`encoding_rs::Encoding::for_label`, `String::from_utf8_lossy`, the
`chardetng` statistical detector, and `Encoding::decode` (which returns the
decoded text and the `had_errors` flag). -/
structure CharsetExternal where
  for_label : String → Option Encoding
  header_charset_capture : String → Option String
  meta_charset_capture : String → Option String
  meta_http_equiv_capture : String → Option String
  lossy_utf8 : List Nat → String
  detect : List Nat → Encoding
  decode : Encoding → List Nat → String × Bool

/-- One regex step of `detect_charset`: if the regex captured a charset name
and its lowercase form is a recognized label, the detected charset; else fall
through. -/
def try_charset (ext : CharsetExternal) (capture : Option String) : Option Charset :=
  match capture with
  | some charset_str =>
    match ext.for_label (str_to_lower charset_str) with
    | some encoding => some (from_encoding encoding)
    | none => none
  | none => none

/-- `detect_charset` (`src/fetcher/pipeline.rs`): first the `charset=`
parameter of the Content-Type header, then `<meta charset=…>`, then
`<meta http-equiv="Content-Type" … charset=…>` — both meta rules over the
lossy-decoded first 4096 bytes — and finally `chardetng` statistical
detection over the same prefix.  First hit wins. -/
def detect_charset (ext : CharsetExternal) (content_type : String)
    (body_bytes : List Nat) : Charset :=
  match try_charset ext (ext.header_charset_capture content_type) with
  | some c => c
  | none =>
    let search_bytes := body_bytes.take 4096
    let search_str := ext.lossy_utf8 search_bytes
    match try_charset ext (ext.meta_charset_capture search_str) with
    | some c => c
    | none =>
      match try_charset ext (ext.meta_http_equiv_capture search_str) with
      | some c => c
      | none => from_encoding (ext.detect search_bytes)

/-- The `let encoding = match charset { … }` of `decode_to_utf8`
(`src/fetcher/pipeline.rs`): the encoding actually used to decode a body
tagged with this charset.  An `Other(name)` tag is looked up by label and
falls back to UTF-8 when unrecognized (`unwrap_or(encoding_rs::UTF_8)`). -/
def encoding_for_charset (ext : CharsetExternal) : Charset → Encoding
  | .utf8 => UTF_8
  | .latin1 => WINDOWS_1252
  | .iso88591 => WINDOWS_1252
  | .windows1252 => WINDOWS_1252
  | .shift_jis => SHIFT_JIS
  | .gb2312 => GBK
  | .big5 => BIG5
  | .other name => (ext.for_label name).getD UTF_8

/-- `decode_to_utf8` (`src/fetcher/pipeline.rs`): decode the full buffer with
the chosen encoding; surface `had_errors` as a `Charset` error. -/
def decode_to_utf8 (ext : CharsetExternal) (body_bytes : List Nat)
    (charset : Charset) : Except FetchError String :=
  let encoding := encoding_for_charset ext charset
  let r := ext.decode encoding body_bytes
  if r.2 then
    .error (.charset ("Failed to decode content with encoding: " ++ encoding.name))
  else
    .ok r.1

/-- Fragment of the WHATWG label table of `encoding_rs::Encoding::for_label`
covering the labels exercised by the concrete witnesses; `"unknown"` is not a
registered label. -/
def for_label_table (label : String) : Option Encoding :=
  if label = "utf-8" ∨ label = "utf8" then some UTF_8
  else if label = "windows-1252" ∨ label = "iso-8859-1" ∨ label = "latin1" then
    some WINDOWS_1252
  else if label = "shift_jis" ∨ label = "sjis" then some SHIFT_JIS
  else if label = "gbk" then some GBK
  else if label = "gb18030" then some GB18030
  else if label = "big5" then some BIG5
  else if label = "euc-kr" then some EUC_KR
  else none

/-- A concrete instantiation of the external charset collaborators, used by
the witnesses: the header regex recognizes one fixed header, the meta regexes
nothing, statistical detection reports windows-1252, and `decode` reports the
name of the encoding it was asked to use (making the used encoding
observable). -/
def sample_external : CharsetExternal where
  for_label := for_label_table
  header_charset_capture := fun ct =>
    if ct = "text/html; charset=UTF-8" then some "UTF-8" else none
  meta_charset_capture := fun _ => none
  meta_http_equiv_capture := fun _ => none
  lossy_utf8 := fun _ => ""
  detect := fun _ => WINDOWS_1252
  decode := fun enc _ => (enc.name, false)

/-! ## HTTP fetch gate, `src/fetcher/client.rs` -/

/-- `MAX_BODY_SIZE` (`src/fetcher/client.rs`): 5 MiB. -/
def MAX_BODY_SIZE : Nat := 5 * 1024 * 1024

/-- `reqwest::StatusCode::is_success`: the status is in `200..=299`. -/
def is_success (status : Nat) : Bool :=
  decide (200 ≤ status) && decide (status ≤ 299)

/-- The observed HTTP response `fetch` works on after `send()`:
`content_length()`, `status()`, the Content-Type header
(`none` = absent; `some none` = present but not readable as ASCII, so
`to_str()` fails; `some (some s)` = readable), the downloaded body bytes and
the final URL. -/
structure HttpResponse where
  content_length : Option Nat
  status : Nat
  content_type_header : Option (Option String)
  body : List Nat
  url_final : String

/-- `PageResponse` (`src/fetcher/types.rs`); the header map and fetch
timestamp carry no logic and are omitted. -/
structure PageResponse where
  url_final : String
  status : Nat
  body_raw : List Nat
  body_utf8 : String
  charset : Charset
deriving DecidableEq, Repr

/-- `process_response` (`src/fetcher/pipeline.rs`): detect the charset,
decode, and assemble the `PageResponse`. -/
def process_response (ext : CharsetExternal) (url_final : String) (status : Nat)
    (body_bytes : List Nat) (content_type : String) :
    Except FetchError PageResponse :=
  let charset := detect_charset ext content_type body_bytes
  match decode_to_utf8 ext body_bytes charset with
  | .error e => .error e
  | .ok body_utf8 => .ok ⟨url_final, status, body_bytes, body_utf8, charset⟩

/-- The stages of `fetch` (`src/fetcher/client.rs`) after the response
arrives: Content-Length precheck, success-status check, content-type gate
(defaulting to `"text/html"` when the header is absent or unreadable),
post-download size check, then `process_response`.  URL parsing and the
network send, and a failed body read (`Io`), are outside the model: the body
bytes are part of the observed response. -/
def fetch_response (ext : CharsetExternal) (resp : HttpResponse) :
    Except FetchError PageResponse :=
  let after_length : Except FetchError PageResponse :=
    if is_success resp.status then
      let content_type := (resp.content_type_header.bind id).getD "text/html"
      if str_contains content_type "text/html" ||
          str_contains content_type "application/xhtml" then
        if resp.body.length > MAX_BODY_SIZE then
          .error (.body_too_large resp.body.length)
        else
          process_response ext resp.url_final resp.status resp.body content_type
      else
        .error (.unsupported_content_type content_type)
    else
      .error (http_error_of_status resp.status)
  match resp.content_length with
  | some cl =>
    if cl > MAX_BODY_SIZE then .error (.body_too_large cl) else after_length
  | none => after_length

/-! ## Extractor rejection rules, `src/extractor/reject.rs` -/

/-- `MIN_CONTENT_LENGTH` (`src/extractor/reject.rs`). -/
def MIN_CONTENT_LENGTH : Nat := 250

/-- `MIN_WORD_COUNT` (`src/extractor/reject.rs`). -/
def MIN_WORD_COUNT : Nat := 50

/-- Rust `str::trim`: strip leading and trailing whitespace (here on the
char list; the ASCII whitespace fragment of `char::is_whitespace`). -/
def str_trim (l : List Char) : List Char :=
  ((l.dropWhile Char.isWhitespace).reverse.dropWhile Char.isWhitespace).reverse

/-- `str::split_whitespace().count()`: the number of maximal non-whitespace
runs.  The boolean argument tracks whether the scan is inside a word. -/
def word_count_aux : List Char → Bool → Nat
  | [], _ => 0
  | c :: rest, in_word =>
    if Char.isWhitespace c then word_count_aux rest false
    else (if in_word then 0 else 1) + word_count_aux rest true

/-- Whitespace-separated word count of a string. -/
def word_count (s : String) : Nat :=
  word_count_aux s.toList false

/-- `str::matches(pat).count()`: the number of non-overlapping, leftmost
occurrences of `pat`.  The keywords used here are all non-empty; the guard
makes the empty pattern count 0. -/
def count_matches (pat : List Char) : List Char → Nat
  | [] => 0
  | c :: rest =>
    if h : pat.isPrefixOf (c :: rest) = true ∧ pat ≠ [] then
      1 + count_matches pat ((c :: rest).drop pat.length)
    else
      count_matches pat rest
termination_by s => s.length
decreasing_by
  · simp only [List.length_drop]
    have hlen : 0 < pat.length := List.length_pos.mpr h.2
    simp only [List.length_cons]
    omega
  · simp only [List.length_cons]
    omega

/-- The `boilerplate_keywords` array of `has_too_much_boilerplate`
(`src/extractor/reject.rs`), verbatim. -/
def boilerplate_keywords : List String :=
  ["cookie", "privacy", "terms", "service", "policy", "gdpr", "consent",
   "accept", "decline", "manage", "preferences", "tracking", "advertisement",
   "subscribe", "newsletter", "login", "sign up", "register", "password",
   "forgot", "reset", "error", "404", "not found", "access denied", "loading",
   "please wait", "javascript", "enable", "browser", "update", "redirect",
   "continue", "click here", "read more", "learn more"]

/-- Total occurrences of the boilerplate keywords in the lowercased text. -/
def boilerplate_count (text : String) : Nat :=
  (boilerplate_keywords.map
    (fun k => count_matches k.toList (str_to_lower text).toList)).sum

/-- `has_too_much_boilerplate(text, total_words)`
(`src/extractor/reject.rs`): the keyword-count-to-word-count ratio exceeds
`MAX_BOILERPLATE_RATIO = 0.3`.  The `f64` test
`count as f64 / words as f64 > 0.3` is modelled by the exact integer
comparison `3·words < 10·count`, which agrees with it for every feasible
size, including `words = 0` (where the float division yields NaN for
`count = 0` and `+∞` otherwise). -/
def has_too_much_boilerplate (text : String) (total_words : Nat) : Bool :=
  decide (3 * total_words < 10 * boilerplate_count text)

/-- `should_reject(title, text)` (`src/extractor/reject.rs`): reject when the
text has fewer than 250 chars, or the trimmed title is empty with fewer than
50 words, or the boilerplate ratio is too high. -/
def should_reject (title text : String) : Bool :=
  if text.toList.length < MIN_CONTENT_LENGTH then true
  else if (str_trim title.toList).isEmpty
      && decide (word_count text < MIN_WORD_COUNT) then true
  else if has_too_much_boilerplate text (word_count text) then true
  else false

/-! ## Language detection, `src/extractor/language.rs` -/

/-- The `whatlang::Lang` variants `lang_to_code` maps explicitly, plus `ukr`
exercising the catchall arm. -/
inductive Lang where
  | eng | rus | cmn | spa | fra | deu | jpn | kor | por | ita | nld
  | pol | tur | swe | dan | fin | heb | ara | hin | tha | vie | ukr
deriving DecidableEq, Repr

/-- `lang_to_code` (`src/extractor/language.rs`); the catchall arm formats
the debug name lowercased, modelled for `ukr`. -/
def lang_to_code : Lang → String
  | .eng => "en"
  | .rus => "ru"
  | .cmn => "zh"
  | .spa => "es"
  | .fra => "fr"
  | .deu => "de"
  | .jpn => "ja"
  | .kor => "ko"
  | .por => "pt"
  | .ita => "it"
  | .nld => "nl"
  | .pol => "pl"
  | .tur => "tr"
  | .swe => "sv"
  | .dan => "da"
  | .fin => "fi"
  | .heb => "he"
  | .ara => "ar"
  | .hin => "hi"
  | .tha => "th"
  | .vie => "vi"
  | .ukr => "ukr"

/-- Rust `str::len` of a char list: the UTF-8 byte length. -/
def utf8_len (l : List Char) : Nat :=
  (l.map Char.utf8Size).sum

/-- `MIN_CONFIDENCE = 0.25` (`src/extractor/language.rs`). -/
def MIN_CONFIDENCE : ℚ := 1 / 4

/-- `MIN_TEXT_LENGTH = 50` (`src/extractor/language.rs`). -/
def MIN_TEXT_LENGTH : Nat := 50

/-- `detect_language` (`src/extractor/language.rs`): skip when
`text.trim().len() < 50` — the UTF-8 **byte** length of the **trimmed**
text — else consult the detector (`whatlang::detect`, abstracted as `det`
returning language and confidence) and map through `lang_to_code` when the
confidence reaches 0.25. -/
def detect_language (det : String → Option (Lang × ℚ)) (text : String) :
    Option String :=
  if utf8_len (str_trim text.toList) < MIN_TEXT_LENGTH then none
  else
    match det text with
    | some info =>
      if info.2 ≥ MIN_CONFIDENCE then some (lang_to_code info.1) else none
    | none => none

/-- A detector that is always fully confident the text is English. -/
def c9_det : String → Option (Lang × ℚ) := fun _ => some (Lang.eng, 1)

/-- 10 leading spaces followed by 45 letters: 55 characters, but only 45
bytes after trimming. -/
def c9_text : String :=
  "          aaaaaaaaaaaaaaaaaaaaaaaaaaaaaaaaaaaaaaaaaaaaa"

/-! ## Theorems -/

/-- C1: for every existing job and every `mark_failure(id, error, next_run_at,
backoff_seconds)` call, the updated row has `attempts` incremented by exactly
one, `last_error` set to the given message, `backoff_seconds` set to the given
value, and `visibility_till` and `reserved_by` null; if `next_run_at` is
present the status becomes queued and `run_at` becomes `next_run_at`,
otherwise the status becomes failed and `run_at` is unchanged. -/
theorem mark_failure_spec (s : Store) (now : Int) (id : Nat) (err : String)
    (next : Option Int) (b : Int) (j : Job) (hmem : j ∈ s) (hid : j.id = id) :
    ∃ j' ∈ mark_failure s now id err next b,
      j'.id = id ∧
      j'.attempts = j.attempts + 1 ∧
      j'.last_error = some err ∧
      j'.backoff_seconds = b ∧
      j'.visibility_till = none ∧
      j'.reserved_by = none ∧
      (∀ t, next = some t → j'.status = .queued ∧ j'.run_at = t) ∧
      (next = none → j'.status = .failed ∧ j'.run_at = j.run_at) := by
  subst hid
  refine ⟨_, List.mem_map_of_mem _ hmem, ?_⟩
  simp only [mark_failure, if_pos rfl]
  cases next with
  | none => simp
  | some t => simp

/-- Concrete witness for `mark_failure_spec`: a terminal failure recorded on
the sample one-row store. -/
theorem mark_failure_spec_witness :
    ∃ j' ∈ mark_failure [sample_job] 5 1 "boom" none 7,
      j'.id = 1 ∧
      j'.attempts = sample_job.attempts + 1 ∧
      j'.last_error = some "boom" ∧
      j'.backoff_seconds = 7 ∧
      j'.visibility_till = none ∧
      j'.reserved_by = none ∧
      (∀ t, (none : Option Int) = some t → j'.status = .queued ∧ j'.run_at = t) ∧
      ((none : Option Int) = none → j'.status = .failed ∧ j'.run_at = sample_job.run_at) :=
  mark_failure_spec [sample_job] 5 1 "boom" none 7 sample_job (by decide) (by decide)

theorem mem_insert_by_run_at {a j : Job} {l : List Job} :
    a ∈ insert_by_run_at j l ↔ a = j ∨ a ∈ l := by
  induction l with
  | nil => simp [insert_by_run_at]
  | cons k rest ih =>
    by_cases h : j.run_at ≤ k.run_at
    · simp [insert_by_run_at, h]
    · simp only [insert_by_run_at, if_neg h, List.mem_cons, ih]
      tauto

theorem mem_order_by_run_at {a : Job} {l : List Job} :
    a ∈ order_by_run_at l ↔ a ∈ l := by
  induction l with
  | nil => simp [order_by_run_at]
  | cons j rest ih => simp [order_by_run_at, mem_insert_by_run_at, ih]

theorem terminal_at_mark_success (s : Store) (now : Int) (id : Nat) :
    terminal_at (mark_success s now id) id := by
  intro j hj hid
  simp only [mark_success, List.mem_map] at hj
  obtain ⟨k, _, hk⟩ := hj
  by_cases h : k.id = id
  · rw [if_pos h] at hk
    left
    rw [← hk]
  · rw [if_neg h] at hk
    exact absurd (hk ▸ hid) h

theorem terminal_at_mark_failure_none (s : Store) (now : Int) (id : Nat)
    (err : String) (b : Int) :
    terminal_at (mark_failure s now id err none b) id := by
  intro j hj hid
  simp only [mark_failure, List.mem_map] at hj
  obtain ⟨k, _, hk⟩ := hj
  by_cases h : k.id = id
  · rw [if_pos h] at hk
    right
    rw [← hk]
  · rw [if_neg h] at hk
    exact absurd (hk ▸ hid) h

/-- A due row is not terminal, hence a terminal id is never among the
candidates claimed by `fetch_due_jobs`, and its rows are left untouched. -/
theorem fetch_due_jobs_terminal (s : Store) (now : Int) (limit : Nat)
    (w : Nat) (v : Int) (id : Nat) (h : terminal_at s id) :
    terminal_at (fetch_due_jobs s now limit w v).1 id ∧
      ∀ j ∈ (fetch_due_jobs s now limit w v).2, j.id ≠ id := by
  have hcand : ∀ c ∈ (order_by_run_at (s.filter (is_due now))).take limit,
      c.id ≠ id := by
    intro c hc hcid
    have hc' : c ∈ s.filter (is_due now) :=
      mem_order_by_run_at.mp (List.take_subset _ _ hc)
    have hmem := (List.mem_filter.mp hc').1
    have hdue := (List.mem_filter.mp hc').2
    have hterm := h c hmem hcid
    simp only [is_due, Bool.and_eq_true, Bool.or_eq_true, decide_eq_true_eq] at hdue
    rcases hterm with ht | ht <;> rcases hdue.1 with hq | hr
    · rw [ht] at hq; cases hq
    · rw [ht] at hr; cases hr.1
    · rw [ht] at hq; cases hq
    · rw [ht] at hr; cases hr.1
  constructor
  · intro j hj hid
    simp only [fetch_due_jobs] at hj
    obtain ⟨k, hkmem, hk⟩ := List.mem_map.mp hj
    by_cases hin : k.id ∈ ((order_by_run_at (s.filter (is_due now))).take limit).map Job.id
    · exfalso
      obtain ⟨c, hc, hcid⟩ := List.mem_map.mp hin
      have : k.id = id := by
        rw [if_pos hin] at hk
        rw [← hk] at hid
        exact hid
      exact hcand c hc (hcid.trans this)
    · rw [if_neg hin] at hk
      exact hk ▸ h k hkmem (hk ▸ hid)
  · intro j hj
    simp only [fetch_due_jobs] at hj
    obtain ⟨c, hc, hcj⟩ := List.mem_map.mp hj
    intro hjid
    exact hcand c hc (by rw [← hcj] at hjid; exact hjid)

theorem fetch_due_runs_avoid (s : Store) (id : Nat)
    (calls : List (Int × Nat × Nat × Int)) (h : terminal_at s id) :
    ∀ batch ∈ (fetch_due_runs s calls).2, ∀ j ∈ batch, j.id ≠ id := by
  induction calls generalizing s with
  | nil => intro batch hb; cases hb
  | cons c rest ih =>
    obtain ⟨now, limit, w, v⟩ := c
    intro batch hb j hj
    have hstep := fetch_due_jobs_terminal s now limit w v id h
    simp only [fetch_due_runs, List.mem_cons] at hb
    rcases hb with hb | hb
    · exact hstep.2 j (hb ▸ hj)
    · exact ih _ hstep.1 batch hb j hj

/-- C2: once a job is terminal — succeeded via `mark_success`, or failed via
`mark_failure` with no `next_run_at` — no later `fetch_due_jobs` call ever
returns it, for all arguments and all later times, as long as no other
operation changes the job's status. -/
theorem terminal_states_stable (s : Store) (now : Int) (id : Nat) (err : String)
    (b : Int) (calls : List (Int × Nat × Nat × Int)) :
    (∀ batch ∈ (fetch_due_runs (mark_success s now id) calls).2,
        ∀ j ∈ batch, j.id ≠ id) ∧
    (∀ batch ∈ (fetch_due_runs (mark_failure s now id err none b) calls).2,
        ∀ j ∈ batch, j.id ≠ id) :=
  ⟨fetch_due_runs_avoid _ id calls (terminal_at_mark_success s now id),
   fetch_due_runs_avoid _ id calls (terminal_at_mark_failure_none s now id err b)⟩

/-- Concrete witness for `terminal_states_stable`: after `mark_success` on
job 1, a later `fetch_due_jobs` claims only job 2. -/
theorem terminal_states_stable_witness :
    (claim_row 10 9 310 sample_job2).id ≠ 1 :=
  (terminal_states_stable [sample_job, sample_job2] 0 1 "e" 0 [(10, 4, 9, 300)]).1
    [claim_row 10 9 310 sample_job2] (by decide)
    (claim_row 10 9 310 sample_job2) (by decide)

theorem nodup_ids_map (s : Store) (f : Job → Job) (hf : ∀ j, (f j).id = j.id)
    (h : (s.map Job.id).Nodup) : ((s.map f).map Job.id).Nodup := by
  have heq : (s.map f).map Job.id = s.map Job.id := by
    rw [List.map_map]
    exact List.map_congr_left (fun a _ => hf a)
  rw [heq]
  exact h

theorem is_due_status {now : Int} {j : Job} (h : is_due now j = true) :
    j.status = .queued ∨ j.status = .running := by
  simp only [is_due, Bool.and_eq_true, Bool.or_eq_true, decide_eq_true_eq] at h
  rcases h.1 with h | h
  · exact Or.inl h
  · exact Or.inr h.1

theorem candidate_mem {s : Store} {now : Int} {limit : Nat} {c : Job}
    (hc : c ∈ (order_by_run_at (s.filter (is_due now))).take limit) :
    c ∈ s ∧ is_due now c = true := by
  have hc' : c ∈ s.filter (is_due now) :=
    mem_order_by_run_at.mp (List.take_subset _ _ hc)
  exact ⟨(List.mem_filter.mp hc').1, (List.mem_filter.mp hc').2⟩

theorem get_job_mem {s : Store} {id : Nat} {j : Job} (h : get_job s id = some j) :
    j ∈ s :=
  List.mem_of_find?_eq_some h

theorem store_ok_of_reachable {P : Int → Prop} (hP1 : ∀ m, P m → 1 ≤ m)
    {s : Store} {fl : List Job} (h : Reachable P true s fl) :
    store_ok s ∧ inflight_ok fl := by
  induction h with
  | empty =>
    exact ⟨⟨fun j hj => absurd hj (List.not_mem_nil j), List.nodup_nil⟩,
      fun j hj => absurd hj (List.not_mem_nil j)⟩
  | enqueue_step s fl now id kind payload run_at max_att hs hfresh hPm ih =>
    refine ⟨⟨?_, ?_⟩, ih.2⟩
    · intro j hj
      rcases List.mem_append.mp hj with hj | hj
      · exact ih.1.1 j hj
      · have hj' := List.mem_singleton.mp hj
        subst hj'
        have h1 : (1 : Int) ≤ max_att.getD 25 := hP1 _ hPm
        refine ⟨le_trans (by norm_num) h1, fun _ => ?_⟩
        simpa using h1
    · simp only [enqueue, List.map_append, List.nodup_append]
      exact ⟨ih.1.2, List.nodup_singleton _, by
        intro a ha hb
        rw [List.map_singleton, List.mem_singleton] at hb
        have hai : a = id := hb
        exact hfresh (hai ▸ ha)⟩
  | fetch_step s fl now limit w v hs ih =>
    have hpres : ∀ j : Job,
        ((if j.id ∈ ((order_by_run_at (s.filter (is_due now))).take limit).map Job.id
          then claim_row now w (now + v) j else j)).id = j.id := by
      intro j
      split <;> rfl
    refine ⟨⟨?_, nodup_ids_map s _ hpres ih.1.2⟩, ?_⟩
    · intro j hj
      simp only [fetch_due_jobs] at hj
      obtain ⟨k, hkmem, hk⟩ := List.mem_map.mp hj
      by_cases hin :
          k.id ∈ ((order_by_run_at (s.filter (is_due now))).take limit).map Job.id
      · rw [if_pos hin] at hk
        obtain ⟨c, hc, hcid⟩ := List.mem_map.mp hin
        obtain ⟨hcs, hcdue⟩ := candidate_mem hc
        have hck : c = k := List.inj_on_of_nodup_map ih.1.2 hcs hkmem hcid
        have hkq : k.status = .queued ∨ k.status = .running :=
          hck ▸ is_due_status hcdue
        have hok := ih.1.1 k hkmem
        subst hk
        exact ⟨hok.1, fun _ => hok.2 hkq⟩
      · rw [if_neg hin] at hk
        exact hk ▸ ih.1.1 k hkmem
    · intro j hj
      rcases List.mem_append.mp hj with hj | hj
      · exact ih.2 j hj
      · simp only [fetch_due_jobs] at hj
        obtain ⟨c, _, hcj⟩ := List.mem_map.mp hj
        rw [← hcj]
        rfl
  | success_step s fl now j0 hs hj0 ih =>
    refine ⟨⟨?_, nodup_ids_map s _ (fun j => by split <;> rfl) ih.1.2⟩,
      fun k hk => ih.2 k (List.mem_of_mem_erase hk)⟩
    intro j hj
    simp only [mark_success] at hj
    obtain ⟨k, hkmem, hk⟩ := List.mem_map.mp hj
    have hok := ih.1.1 k hkmem
    by_cases hid : k.id = j0.id
    · rw [if_pos hid] at hk
      subst hk
      exact ⟨hok.1, by intro hcon; rcases hcon with hc | hc <;> cases hc⟩
    · rw [if_neg hid] at hk
      exact hk ▸ hok
  | handler_create_fail_step s fl now j0 msg hs hj0 hcur ih =>
    have hj0s : j0 ∈ s := get_job_mem (hcur rfl)
    have hrun : j0.status = .running := ih.2 j0 hj0
    refine ⟨⟨?_, nodup_ids_map s _ (fun j => by split <;> rfl) ih.1.2⟩,
      fun k hk => ih.2 k (List.mem_of_mem_erase hk)⟩
    intro j hj
    simp only [mark_failure] at hj
    obtain ⟨k, hkmem, hk⟩ := List.mem_map.mp hj
    have hok := ih.1.1 k hkmem
    by_cases hid : k.id = j0.id
    · have hkj : k = j0 := List.inj_on_of_nodup_map ih.1.2 hkmem hj0s hid
      subst hkj
      rw [if_pos hid] at hk
      subst hk
      refine ⟨?_, by intro hcon; rcases hcon with hc | hc <;> cases hc⟩
      exact hok.2 (Or.inr hrun)
    · rw [if_neg hid] at hk
      exact hk ▸ hok
  | retry_step s fl now j0 err d hs hj0 hlt hcur ih =>
    have hj0s : j0 ∈ s := get_job_mem (hcur rfl)
    refine ⟨⟨?_, nodup_ids_map s _ (fun j => by split <;> rfl) ih.1.2⟩,
      fun k hk => ih.2 k (List.mem_of_mem_erase hk)⟩
    intro j hj
    simp only [mark_failure] at hj
    obtain ⟨k, hkmem, hk⟩ := List.mem_map.mp hj
    have hok := ih.1.1 k hkmem
    by_cases hid : k.id = j0.id
    · have hkj : k = j0 := List.inj_on_of_nodup_map ih.1.2 hkmem hj0s hid
      subst hkj
      rw [if_pos hid] at hk
      subst hk
      exact ⟨le_of_lt hlt, fun _ => hlt⟩
    · rw [if_neg hid] at hk
      exact hk ▸ hok
  | fail_terminal_step s fl now j0 err hs hj0 hge hcur ih =>
    have hj0s : j0 ∈ s := get_job_mem (hcur rfl)
    have hrun : j0.status = .running := ih.2 j0 hj0
    refine ⟨⟨?_, nodup_ids_map s _ (fun j => by split <;> rfl) ih.1.2⟩,
      fun k hk => ih.2 k (List.mem_of_mem_erase hk)⟩
    intro j hj
    simp only [mark_failure] at hj
    obtain ⟨k, hkmem, hk⟩ := List.mem_map.mp hj
    have hok := ih.1.1 k hkmem
    by_cases hid : k.id = j0.id
    · have hkj : k = j0 := List.inj_on_of_nodup_map ih.1.2 hkmem hj0s hid
      subst hkj
      rw [if_pos hid] at hk
      subst hk
      refine ⟨hok.2 (Or.inr hrun), ?_⟩
      intro hcon
      rcases hcon with hc | hc <;> cases hc
    · rw [if_neg hid] at hk
      exact hk ▸ hok
  | extend_step s fl now id v hs ih =>
    refine ⟨⟨?_, nodup_ids_map s _ (fun j => by split <;> rfl) ih.1.2⟩, ih.2⟩
    intro j hj
    simp only [extend_visibility] at hj
    obtain ⟨k, hkmem, hk⟩ := List.mem_map.mp hj
    have hok := ih.1.1 k hkmem
    by_cases hid : k.id = id ∧ k.status = .running
    · rw [if_pos hid] at hk
      subst hk
      exact ⟨hok.1, fun _ => hok.2 (Or.inr hid.2)⟩
    · rw [if_neg hid] at hk
      exact hk ▸ hok

/-- C3 (amended): in every store reachable from empty by the exposed
operations under the supervisor's retry policy, every job satisfies
`attempts ≤ max_attempts` — provided (i) every enqueue uses
`max_attempts ≥ 1` (the default 25 qualifies) and (ii) every mark finds its
row exactly as the worker claimed it, i.e. no visibility-timeout reclaim ran
the job concurrently (`fresh_marks := true`).  Both provisos are forced:
dropping (i) fails at `max_attempts = 0`, dropping (ii) fails at
`max_attempts = 2` through a late mark from a stale snapshot — see
`attempts_can_exceed_max_attempts`. -/
theorem attempts_le_max_attempts {s : Store} {fl : List Job}
    (h : Reachable (fun m => 1 ≤ m) true s fl) :
    ∀ j ∈ s, j.attempts ≤ j.max_attempts :=
  fun j hj => ((store_ok_of_reachable (fun _ hm => hm) h).1.1 j hj).1

/-- Concrete witness for `attempts_le_max_attempts`: a store holding one
freshly enqueued default job. -/
theorem attempts_le_max_attempts_witness :
    sample_job.attempts ≤ sample_job.max_attempts :=
  attempts_le_max_attempts
    (Reachable.enqueue_step [] [] 0 1 "fetch_page" "x" (some 0) none
      Reachable.empty (by simp) (by norm_num))
    sample_job (by decide)

/-- Counterexample to the unamended C3, in the faithful system
(`fresh_marks := false`): (a) with `max_attempts = 0` allowed at enqueue, one
claim and one failing execution reach `attempts = 1 > 0`; (b) even with every
`max_attempts ≥ 1`, a visibility-timeout reclaim plus the original worker's
late mark — decided on its stale snapshot, landing on the queued row because
`mark_failure` has no status guard — reach `attempts = 3 > 2`. -/
theorem attempts_can_exceed_max_attempts :
    (Reachable (fun _ => True) false c3_s3 [] ∧ c3_viol ∈ c3_s3 ∧
      ¬ c3_viol.attempts ≤ c3_viol.max_attempts) ∧
    (Reachable (fun m => 1 ≤ m) false c3r_s7 [] ∧ c3r_viol ∈ c3r_s7 ∧
      ¬ c3r_viol.attempts ≤ c3r_viol.max_attempts) := by
  refine ⟨⟨?_, by decide, by decide⟩, ⟨?_, by decide, by decide⟩⟩
  · have h1 : Reachable (fun _ => True) false c3_s1 [] :=
      Reachable.enqueue_step [] [] 0 1 "k" "p" none (some 0)
        Reachable.empty (by simp) trivial
    have h2 := Reachable.fetch_step c3_s1 [] 0 1 7 300 h1
    exact Reachable.fail_terminal_step _ _ 1 c3_jrun "boom" h2
      (by decide) (by decide) (fun hf => Bool.noConfusion hf)
  · have h1 : Reachable (fun m => (1 : Int) ≤ m) false c3r_s1 [] :=
      Reachable.enqueue_step [] [] 0 1 "k" "p" none (some 2)
        Reachable.empty (by simp) (by norm_num)
    have h2 := Reachable.fetch_step c3r_s1 [] 0 1 100 10 h1
    have h3 := Reachable.fetch_step c3r_s2 _ 11 1 200 10 h2
    have h4 := Reachable.retry_step _ _ 11 c3r_jB "e1" 5 h3
      (by decide) (by decide) (fun hf => Bool.noConfusion hf)
    have h5 := Reachable.retry_step _ _ 12 c3r_jA "e2" 5 h4
      (by decide) (by decide) (fun hf => Bool.noConfusion hf)
    have h6 := Reachable.fetch_step _ _ 20 1 300 10 h5
    exact Reachable.fail_terminal_step _ _ 20 c3r_jC "e3" h6
      (by decide) (by decide) (fun hf => Bool.noConfusion hf)

/-- C4: for every attempt `a` (negative treated as zero), base `b` and jitter
factor in `[0.7, 1.3)`, the delay equals the saturated
`b · 2^min(max(a,0),10)` scaled by the jitter and rounded to whole seconds,
and hence lies within `[0.7·D - 1/2, 1.3·D + 1/2]` where `D` is the saturated
jitter-free delay. -/
theorem calculate_backoff_delay_spec (a : Int) (b : Nat) (j : ℚ)
    (hj1 : 7 / 10 ≤ j) (hj2 : j < 13 / 10) :
    calculate_backoff_delay a b j = (⌊backoff_ideal a b * j + 1 / 2⌋).toNat ∧
    7 / 10 * backoff_ideal a b - 1 / 2 ≤ (calculate_backoff_delay a b j : ℚ) ∧
    (calculate_backoff_delay a b j : ℚ) ≤ 13 / 10 * backoff_ideal a b + 1 / 2 := by
  have hcap : min (2 ^ min ((max a 0).toNat) 10) u32_max
      = 2 ^ min ((max a 0).toNat) 10 := by
    apply Nat.min_eq_left
    calc 2 ^ min ((max a 0).toNat) 10
        ≤ 2 ^ 10 := Nat.pow_le_pow_right (by norm_num) (Nat.min_le_right _ _)
      _ ≤ u32_max := by norm_num [u32_max]
  have heq : calculate_backoff_delay a b j
      = (⌊backoff_ideal a b * j + 1 / 2⌋).toNat := by
    simp only [calculate_backoff_delay, backoff_ideal]
    rw [hcap]
    congr 2
    push_cast [Nat.cast_min]
    ring_nf
  have hj0 : 0 ≤ j := le_trans (by norm_num) hj1
  have hD0 : 0 ≤ backoff_ideal a b := by
    unfold backoff_ideal
    apply le_min
    · positivity
    · positivity
  have hx0 : 0 ≤ backoff_ideal a b * j + 1 / 2 := by positivity
  have hfl0 : 0 ≤ ⌊backoff_ideal a b * j + 1 / 2⌋ := Int.floor_nonneg.mpr hx0
  have hcast : (((⌊backoff_ideal a b * j + 1 / 2⌋).toNat : Nat) : ℚ)
      = ((⌊backoff_ideal a b * j + 1 / 2⌋ : Int) : ℚ) := by
    exact_mod_cast Int.toNat_of_nonneg hfl0
  have hlow : (backoff_ideal a b * j + 1 / 2) - 1
      < ((⌊backoff_ideal a b * j + 1 / 2⌋ : Int) : ℚ) := Int.sub_one_lt_floor _
  have hhigh : ((⌊backoff_ideal a b * j + 1 / 2⌋ : Int) : ℚ)
      ≤ backoff_ideal a b * j + 1 / 2 := Int.floor_le _
  have hmul_lo : 7 / 10 * backoff_ideal a b ≤ j * backoff_ideal a b :=
    mul_le_mul_of_nonneg_right hj1 hD0
  have hmul_hi : j * backoff_ideal a b ≤ 13 / 10 * backoff_ideal a b :=
    mul_le_mul_of_nonneg_right (le_of_lt hj2) hD0
  refine ⟨heq, ?_, ?_⟩
  · rw [heq, hcast]
    nlinarith [hlow, hmul_lo]
  · rw [heq, hcast]
    nlinarith [hhigh, hmul_hi]

/-- Concrete witness for `calculate_backoff_delay_spec`: attempt 3, base 30,
jitter 1. -/
theorem calculate_backoff_delay_spec_witness :
    (7 / 10 ≤ (1 : ℚ) ∧ (1 : ℚ) < 13 / 10) ∧
    (calculate_backoff_delay 3 30 1 = (⌊backoff_ideal 3 30 * 1 + 1 / 2⌋).toNat ∧
     7 / 10 * backoff_ideal 3 30 - 1 / 2 ≤ (calculate_backoff_delay 3 30 1 : ℚ) ∧
     (calculate_backoff_delay 3 30 1 : ℚ) ≤ 13 / 10 * backoff_ideal 3 30 + 1 / 2) :=
  ⟨⟨by norm_num, by norm_num⟩,
   calculate_backoff_delay_spec 3 30 1 (by norm_num) (by norm_num)⟩

/-- C5: `should_retry` is true exactly on `Dns`, `Tls`, `ConnectTimeout`,
`RequestTimeout`, `RedirectLoop`, `Io`, `Unknown` and `Http` with
`retriable = true`, and false exactly on `InvalidUrl`, `BodyTooLarge`,
`UnsupportedContentType`, `Charset` and `Http` with `retriable = false`;
every `Http` error the fetcher constructs — directly in `fetch` or through
`from_reqwest_error` — is retriable iff its status is a 5xx server error. -/
theorem should_retry_spec :
    (∀ e : FetchError, should_retry e = true ↔
      ((∃ m, e = .dns m) ∨ (∃ m, e = .tls m) ∨ e = .connect_timeout ∨
       e = .request_timeout ∨ e = .redirect_loop ∨ (∃ m, e = .io_error m) ∨
       (∃ m, e = .unknown m) ∨ (∃ st, e = .http st true))) ∧
    (∀ e : FetchError, should_retry e = false ↔
      ((∃ m, e = .invalid_url m) ∨ (∃ n, e = .body_too_large n) ∨
       (∃ c, e = .unsupported_content_type c) ∨ (∃ m, e = .charset m) ∨
       (∃ st, e = .http st false))) ∧
    (∀ st, should_retry (http_error_of_status st) = true ↔ (500 ≤ st ∧ st ≤ 599)) ∧
    (∀ (e : ReqwestError) (st : Nat), e.status = some st →
      e.is_timeout = false → e.is_redirect = false →
      from_reqwest_error e = http_error_of_status st) := by
  refine ⟨?_, ?_, ?_, ?_⟩
  · intro e
    cases e <;> simp [should_retry]
  · intro e
    cases e <;> simp [should_retry]
  · intro st
    simp [should_retry, http_error_of_status, is_server_error]
  · intro e st hst ht hr
    simp [from_reqwest_error, ht, hr, hst, http_error_of_status]

/-- Concrete witness for `should_retry_spec`: a bare 503 response error maps
to `Http 503` with `retriable = true`. -/
theorem should_retry_spec_witness :
    from_reqwest_error ⟨false, false, false, some 503, false, "oops"⟩
      = http_error_of_status 503 :=
  should_retry_spec.2.2.2 ⟨false, false, false, some 503, false, "oops"⟩ 503
    rfl rfl rfl

/-- C6: `detect_charset` picks the charset by the first matching rule, in
order: recognized header `charset=` parameter; recognized `<meta charset=…>`
over the first 4096 bytes; recognized `<meta http-equiv="Content-Type" …
charset=…>` over the first 4096 bytes; statistical detection over the first
4096 bytes.  A recognized header charset therefore overrides any meta
charset, which overrides statistical detection. -/
theorem detect_charset_priority (ext : CharsetExternal) (content_type : String)
    (body : List Nat) :
    (∀ name enc, ext.header_charset_capture content_type = some name →
      ext.for_label (str_to_lower name) = some enc →
      detect_charset ext content_type body = from_encoding enc) ∧
    (try_charset ext (ext.header_charset_capture content_type) = none →
      ∀ name enc,
        ext.meta_charset_capture (ext.lossy_utf8 (body.take 4096)) = some name →
        ext.for_label (str_to_lower name) = some enc →
        detect_charset ext content_type body = from_encoding enc) ∧
    (try_charset ext (ext.header_charset_capture content_type) = none →
      try_charset ext (ext.meta_charset_capture (ext.lossy_utf8 (body.take 4096)))
        = none →
      ∀ name enc,
        ext.meta_http_equiv_capture (ext.lossy_utf8 (body.take 4096)) = some name →
        ext.for_label (str_to_lower name) = some enc →
        detect_charset ext content_type body = from_encoding enc) ∧
    (try_charset ext (ext.header_charset_capture content_type) = none →
      try_charset ext (ext.meta_charset_capture (ext.lossy_utf8 (body.take 4096)))
        = none →
      try_charset ext
          (ext.meta_http_equiv_capture (ext.lossy_utf8 (body.take 4096))) = none →
      detect_charset ext content_type body
        = from_encoding (ext.detect (body.take 4096))) := by
  refine ⟨?_, ?_, ?_, ?_⟩
  · intro name enc h1 h2
    simp [detect_charset, try_charset, h1, h2]
  · intro h0 name enc h1 h2
    simp only [detect_charset, h0]
    simp only [try_charset, h1, h2]
  · intro h0 h1 name enc h2 h3
    simp only [detect_charset, h0, h1]
    simp only [try_charset, h2, h3]
  · intro h0 h1 h2
    simp only [detect_charset, h0, h1, h2]

/-- Concrete witness for `detect_charset_priority`: a UTF-8 header charset
wins even though statistical detection would report windows-1252. -/
theorem detect_charset_priority_witness :
    detect_charset sample_external "text/html; charset=UTF-8" []
      = from_encoding UTF_8 :=
  (detect_charset_priority sample_external "text/html; charset=UTF-8" []).1
    "UTF-8" UTF_8 (by decide) (by decide)

/-- C7 (amended): a detected encoding outside the known set yields the fixed
generic tag `Other("unknown")` — not a tag carrying the encoding's name —
and decoding an `Other(name)` tag looks `name` up as an encoding label,
falling back to UTF-8 when the label is unrecognized (as `"unknown"` is). -/
theorem charset_other_spec :
    (∀ enc : Encoding,
      enc ≠ UTF_8 → enc ≠ WINDOWS_1252 → enc ≠ SHIFT_JIS → enc ≠ GBK →
      enc ≠ GB18030 → enc ≠ BIG5 → from_encoding enc = .other "unknown") ∧
    (∀ (ext : CharsetExternal) (name : String) (enc : Encoding),
      ext.for_label name = some enc →
      encoding_for_charset ext (.other name) = enc) ∧
    (∀ (ext : CharsetExternal) (name : String),
      ext.for_label name = none →
      encoding_for_charset ext (.other name) = UTF_8) := by
  refine ⟨?_, ?_, ?_⟩
  · intro enc h1 h2 h3 h4 h5 h6
    simp [from_encoding, h1, h2, h3, h4, h5, h6]
  · intro ext name enc h
    simp [encoding_for_charset, h]
  · intro ext name h
    simp [encoding_for_charset, h]

/-- Concrete witness for `charset_other_spec`: EUC-KR is tagged
`Other("unknown")`, and an `Other` tag whose name is a recognized label is
decoded with that encoding. -/
theorem charset_other_spec_witness :
    from_encoding EUC_KR = Charset.other "unknown" ∧
    encoding_for_charset sample_external (.other "euc-kr") = EUC_KR :=
  ⟨charset_other_spec.1 EUC_KR (by decide) (by decide) (by decide) (by decide)
      (by decide) (by decide),
   charset_other_spec.2.1 sample_external "euc-kr" EUC_KR (by decide)⟩

/-- Counterexample to the unamended C7: for the out-of-set encoding EUC-KR
the tag is `Other("unknown")`, not `Other("EUC-KR")`, and the body is then
decoded with UTF-8 (observable through a decoder that reports the encoding
it was given), not with the detected encoding. -/
theorem from_encoding_discards_name :
    from_encoding EUC_KR = Charset.other "unknown" ∧
    from_encoding EUC_KR ≠ Charset.other EUC_KR.name ∧
    decode_to_utf8 sample_external [] (from_encoding EUC_KR) = .ok UTF_8.name ∧
    UTF_8.name ≠ EUC_KR.name :=
  ⟨by decide, by decide, by rfl, by decide⟩

/-- `process_response` can fail only with a `Charset` error, never with
`UnsupportedContentType`. -/
theorem process_response_not_unsupported (ext : CharsetExternal) (url : String)
    (st : Nat) (body : List Nat) (ctArg ct0 : String) :
    process_response ext url st body ctArg
      ≠ .error (.unsupported_content_type ct0) := by
  by_cases hc :
      (ext.decode (encoding_for_charset ext (detect_charset ext ctArg body)) body).2
        = true
  · simp [process_response, decode_to_utf8, hc]
  · simp [process_response, decode_to_utf8, hc]

/-- C10: for a successful response whose Content-Type header is absent or not
readable as an ASCII string, `fetch` treats the content type as
`"text/html"`: it does not return `UnsupportedContentType` but proceeds to
download and decode the body (given the size checks pass, which the gate
itself does not alter). -/
theorem missing_content_type_defaults_to_html (ext : CharsetExternal)
    (resp : HttpResponse)
    (hok : is_success resp.status = true)
    (hct : resp.content_type_header = none ∨ resp.content_type_header = some none)
    (hcl : ∀ cl, resp.content_length = some cl → cl ≤ MAX_BODY_SIZE)
    (hbody : resp.body.length ≤ MAX_BODY_SIZE) :
    fetch_response ext resp
      = process_response ext resp.url_final resp.status resp.body "text/html" ∧
    ∀ ct, fetch_response ext resp ≠ .error (.unsupported_content_type ct) := by
  have hmain : fetch_response ext resp
      = process_response ext resp.url_final resp.status resp.body "text/html" := by
    unfold fetch_response
    rcases hct with h | h
    · cases hclv : resp.content_length with
      | none => simp +decide [h, hok, Nat.not_lt.mpr hbody]
      | some cl =>
        simp +decide [h, hok, Nat.not_lt.mpr hbody, Nat.not_lt.mpr (hcl cl hclv)]
    · cases hclv : resp.content_length with
      | none => simp +decide [h, hok, Nat.not_lt.mpr hbody]
      | some cl =>
        simp +decide [h, hok, Nat.not_lt.mpr hbody, Nat.not_lt.mpr (hcl cl hclv)]
  exact ⟨hmain, fun ct => hmain ▸ process_response_not_unsupported ext _ _ _ _ ct⟩

/-- Concrete witness for `missing_content_type_defaults_to_html`: a 200
response with no Content-Type header reaches the decode stage. -/
theorem missing_content_type_witness :
    fetch_response sample_external ⟨none, 200, none, [], "u"⟩
      = process_response sample_external "u" 200 [] "text/html" :=
  (missing_content_type_defaults_to_html sample_external ⟨none, 200, none, [], "u"⟩
    (by decide) (Or.inl rfl) (fun cl h => by cases h) (by decide)).1

/-- C8: the extractor rejects iff the cleaned text has fewer than 250
characters, or the trimmed title is empty and the whitespace-separated word
count is below 50, or the boilerplate ratio — total occurrences of the fixed
case-insensitively matched keyword list divided by the word count — exceeds
0.3; otherwise it accepts. -/
theorem should_reject_iff (title text : String) :
    should_reject title text = true ↔
      (text.toList.length < 250 ∨
       (str_trim title.toList = [] ∧ word_count text < 50) ∨
       ((boilerplate_count text : ℚ) > 3 / 10 * (word_count text : ℚ))) := by
  have hratio : (3 * word_count text < 10 * boilerplate_count text) ↔
      ((boilerplate_count text : ℚ) > 3 / 10 * (word_count text : ℚ)) := by
    rw [gt_iff_lt]
    constructor
    · intro h
      have h' : ((3 * word_count text : Nat) : ℚ)
          < ((10 * boilerplate_count text : Nat) : ℚ) := by exact_mod_cast h
      push_cast at h'
      linarith
    · intro h
      have h' : ((3 * word_count text : Nat) : ℚ)
          < ((10 * boilerplate_count text : Nat) : ℚ) := by
        push_cast
        linarith
      exact_mod_cast h'
  have hb : has_too_much_boilerplate text (word_count text) = true ↔
      ((boilerplate_count text : ℚ) > 3 / 10 * (word_count text : ℚ)) := by
    rw [has_too_much_boilerplate, decide_eq_true_eq]
    exact hratio
  have h2iff : ((str_trim title.toList).isEmpty
        && decide (word_count text < MIN_WORD_COUNT)) = true ↔
      (str_trim title.toList = [] ∧ word_count text < 50) := by
    simp [MIN_WORD_COUNT]
  unfold should_reject
  by_cases h1 : text.toList.length < MIN_CONTENT_LENGTH
  · simp only [if_pos h1, true_iff]
    exact Or.inl h1
  · have h1' : ¬ text.toList.length < 250 := h1
    simp only [if_neg h1]
    by_cases h2 : ((str_trim title.toList).isEmpty
        && decide (word_count text < MIN_WORD_COUNT)) = true
    · simp only [if_pos h2, true_iff]
      exact Or.inr (Or.inl (h2iff.mp h2))
    · simp only [if_neg h2]
      by_cases h3 : has_too_much_boilerplate text (word_count text) = true
      · simp only [if_pos h3, true_iff]
        exact Or.inr (Or.inr (hb.mp h3))
      · simp only [if_neg h3]
        constructor
        · intro hfalse
          exact Bool.noConfusion hfalse
        · intro hrhs
          rcases hrhs with hA | hB | hC
          · exact absurd hA h1'
          · exact absurd (h2iff.mpr hB) h2
          · exact absurd (hb.mpr hC) h3

/-- C9 (amended): `detect_language` returns null when the **trimmed** text's
UTF-8 **byte** length is below 50; otherwise it returns the mapped short
code exactly when the detector reports confidence at least 0.25, and null
otherwise. -/
theorem detect_language_spec (det : String → Option (Lang × ℚ)) (text : String) :
    (utf8_len (str_trim text.toList) < 50 → detect_language det text = none) ∧
    (¬ utf8_len (str_trim text.toList) < 50 →
      (∀ l conf, det text = some (l, conf) → conf ≥ 1 / 4 →
        detect_language det text = some (lang_to_code l)) ∧
      (∀ l conf, det text = some (l, conf) → ¬ conf ≥ 1 / 4 →
        detect_language det text = none) ∧
      (det text = none → detect_language det text = none)) := by
  constructor
  · intro h
    unfold detect_language
    rw [if_pos (show utf8_len (str_trim text.toList) < MIN_TEXT_LENGTH from h)]
  · intro h
    have h' : ¬ utf8_len (str_trim text.toList) < MIN_TEXT_LENGTH := h
    refine ⟨?_, ?_, ?_⟩
    · intro l conf hdet hconf
      unfold detect_language
      rw [if_neg h', hdet]
      show (if MIN_CONFIDENCE ≤ conf then some (lang_to_code l) else none)
          = some (lang_to_code l)
      rw [if_pos (show MIN_CONFIDENCE ≤ conf from hconf)]
    · intro l conf hdet hconf
      unfold detect_language
      rw [if_neg h', hdet]
      show (if MIN_CONFIDENCE ≤ conf then some (lang_to_code l) else none) = none
      rw [if_neg (show ¬ MIN_CONFIDENCE ≤ conf from hconf)]
    · intro hdet
      unfold detect_language
      rw [if_neg h', hdet]

/-- Concrete witness for `detect_language_spec`: 50 letters of high-confidence
English map to `"en"`. -/
theorem detect_language_spec_witness :
    detect_language c9_det "aaaaaaaaaaaaaaaaaaaaaaaaaaaaaaaaaaaaaaaaaaaaaaaaaa"
      = some (lang_to_code Lang.eng) :=
  ((detect_language_spec c9_det
      "aaaaaaaaaaaaaaaaaaaaaaaaaaaaaaaaaaaaaaaaaaaaaaaaaa").2
    (by decide)).1 Lang.eng 1 rfl (by norm_num)

/-- Counterexample to the unamended C9: a 55-character text (hence at least
50 characters) with a fully confident detector still yields null, because
the code gates on the byte length of the *trimmed* text, which is 45. -/
theorem detect_language_counterexample :
    c9_text.toList.length ≥ 50 ∧
    c9_det c9_text = some (Lang.eng, 1) ∧ ((1 : ℚ) ≥ 1 / 4) ∧
    detect_language c9_det c9_text = none :=
  ⟨by decide, rfl, by norm_num, by decide⟩

/-- Concrete witness for `should_reject_iff`: instantiated at a short text. -/
theorem should_reject_iff_witness :
    should_reject "Title" "Short" = true ↔
      ("Short".toList.length < 250 ∨
       (str_trim "Title".toList = [] ∧ word_count "Short" < 50) ∨
       ((boilerplate_count "Short" : ℚ) > 3 / 10 * (word_count "Short" : ℚ))) :=
  should_reject_iff "Title" "Short"

end Capsule
